import Mathlib

/-!
Verification of the fusego `FileSystem` contract (src/file_system.go).

The Go source declares the contract types (`InodeID`, `HandleID`,
`GenerationNumber`, the four request/response structs) and the
`FileSystem` interface; the behavioural obligations (identifier
lifecycle, generation bumps, handle linearity, cache semantics) are
stated in its documentation and in the specification.  Since no
implementation ships under src/, the operations below are modelled from
the spec as a reference state machine and the claims are settled against
that model.

Machine integers: `InodeID`, `HandleID` and `GenerationNumber` are Go
`uint64`; they are embedded as `Nat`, with reduction modulo `2^64`
written explicitly where overflow matters (the generation bump).
`time.Time` values are embedded as `Nat` nanosecond timestamps with `0`
standing for Go's zero `time.Time`.
-/

namespace Fusego

/-- Embeds Go `type InodeID uint64` (src/file_system.go:63). -/
abbrev InodeID := Nat

/-- Embeds Go `type HandleID uint64` (src/file_system.go:69). -/
abbrev HandleID := Nat

/-- Embeds Go `type GenerationNumber uint64` (src/file_system.go:93). -/
abbrev GenerationNumber := Nat

/-- The modulus of Go's `uint64`. -/
def U64 : Nat := 2 ^ 64

/-- Embeds `const RootInodeID InodeID = InodeID(bazilfuse.RootID)`
(src/file_system.go:76).  `bazilfuse.RootID` is the external FUSE
protocol constant `FUSE_ROOT_ID = 1`. -/
def RootInodeID : InodeID := 1

/-- Embeds Go `type InodeAttributes struct { Size uint64 }`
(src/file_system.go:97). -/
structure InodeAttributes where
  Size : Nat
deriving Repr, DecidableEq

/-- Embeds Go `type LookUpInodeRequest struct` (src/file_system.go:106). -/
structure LookUpInodeRequest where
  Parent : InodeID
  Name : String
deriving Repr, DecidableEq

/-- Embeds Go `type LookUpInodeResponse struct` (src/file_system.go:122).
`AttributesExpiration` and `EntryExpiration` are `time.Time` values,
embedded as `Nat` with `0` for the zero value (caching disabled). -/
structure LookUpInodeResponse where
  Child : InodeID
  Generation : GenerationNumber
  Attributes : InodeAttributes
  AttributesExpiration : Nat
  EntryExpiration : Nat
deriving Repr, DecidableEq

/-- Embeds Go `type ForgetInodeRequest struct` (src/file_system.go:190). -/
structure ForgetInodeRequest where
  ID : InodeID
deriving Repr, DecidableEq

/-- Embeds Go `type ForgetInodeResponse struct {}` (src/file_system.go:197). -/
structure ForgetInodeResponse where
deriving Repr, DecidableEq

/-- Embeds Go `type OpenDirRequest struct` (src/file_system.go:200).
`Flags` is the opaque `bazilfuse.OpenFlags` bitset, embedded as `Nat`. -/
structure OpenDirRequest where
  Inode : InodeID
  Flags : Nat
deriving Repr, DecidableEq

/-- Embeds Go `type OpenDirResponse struct` (src/file_system.go:208). -/
structure OpenDirResponse where
  Handle : HandleID
deriving Repr, DecidableEq

/-- Embeds Go `type ReleaseHandleRequest struct` (src/file_system.go:218). -/
structure ReleaseHandleRequest where
  Handle : HandleID
deriving Repr, DecidableEq

/-- Embeds Go `type ReleaseHandleResponse struct {}` (src/file_system.go:225). -/
structure ReleaseHandleResponse where
deriving Repr, DecidableEq

/-- Modelled from the spec: the error taxonomy of §7 (`NotFound`,
`NotADirectory`, `PermissionDenied`, `Unsupported`, `IOError`); in the
Go source these are `error` values such as ENOENT/ENOTDIR/ENOSYS
surfaced through each method's `error` result. -/
inductive FuseError where
  | notFound
  | notADirectory
  | permissionDenied
  | unsupported
  | ioError
deriving Repr, DecidableEq

/-- Modelled from the spec: the one result an invoked operation returns,
either a typed success response or a failure kind (§5: "exactly one
result (success or failure)"). -/
inductive OpResult where
  | lookupOk (resp : LookUpInodeResponse)
  | forgetOk (resp : ForgetInodeResponse)
  | opendirOk (resp : OpenDirResponse)
  | releaseOk (resp : ReleaseHandleResponse)
  | failed (e : FuseError)
deriving Repr, DecidableEq

/-- Modelled from the spec: the identifier bookkeeping of §5/§9 that a
conforming implementation owns (live/retired inode set with paired
generations, latest generation per numeric id, open-handle set, handle
mint counter).  `absorbedFaults` counts internal cleanup faults that
were absorbed (logged) rather than propagated (§7).  None of this state
appears under src/, which only declares the contract types. -/
structure FSState where
  live : List (InodeID × GenerationNumber)
  lastGen : List (InodeID × GenerationNumber)
  openHandles : List HandleID
  nextHandle : HandleID
  absorbedFaults : Nat
deriving Repr, DecidableEq

/-- Modelled from the spec: the initial state; no inode other than the
pre-live root has been minted, no handle is open. -/
def initState : FSState :=
  { live := [], lastGen := [], openHandles := [], nextHandle := 1, absorbedFaults := 0 }

/-- The numeric inode ids currently live. -/
def liveIds (st : FSState) : List InodeID :=
  st.live.map Prod.fst

/-- Modelled from the spec: `isValid(id)` of §4.1 — true if `id` is
`RootInodeID` (pre-live) or was returned by a still-unretired
LookUpInode call. -/
def isValid (st : FSState) (id : InodeID) : Prop :=
  id = RootInodeID ∨ id ∈ liveIds st

instance (st : FSState) (id : InodeID) : Decidable (isValid st id) := by
  unfold isValid; infer_instance

/-- Boolean form of `isValid`, used executably inside the operations. -/
def isValidB (st : FSState) (id : InodeID) : Bool :=
  decide (isValid st id)

/-- First-match association lookup on a generation table. -/
def lookupGen (l : List (InodeID × GenerationNumber)) (id : InodeID) :
    Option GenerationNumber :=
  match l with
  | [] => none
  | (i, g) :: t => if i = id then some g else lookupGen t id

/-- Modelled from the spec: the mint of §4.1 — produce an `InodeID`
distinct from any currently live id and from the reserved
`RootInodeID`.  The reference implementation picks one greater than
every live id and than the root. -/
def freshInode (st : FSState) : InodeID :=
  (liveIds st).foldr max RootInodeID + 1

/-- Modelled from the spec: the generation paired with a mint of numeric
id `id` — `0` for a first issue, and the previous generation bumped by
one (modulo `2^64`, a `uint64` counter) on a reissue, so that it
"differs from any prior generation for the same numeric value" (§4.1). -/
def nextGen (st : FSState) (id : InodeID) : GenerationNumber :=
  match lookupGen st.lastGen id with
  | none => 0
  | some g => (g + 1) % U64

/-- Modelled from the spec: the per-mount environment the contract is
implemented over — which (parent, name) pairs resolve to a child, and
which inodes denote directories.  The backing store is an external
collaborator (§1 OUT OF SCOPE), so it is a parameter of the model. -/
structure Env where
  childExists : InodeID → String → Bool
  isDir : InodeID → Bool

/-- Modelled from the spec: the bookkeeping after a successful mint —
the fresh child id becomes live, paired with its generation, and the
generation table records it as the latest generation for that numeric
value (§4.1). -/
def mintState (st : FSState) : FSState :=
  { st with live := (freshInode st, nextGen st (freshInode st)) :: st.live,
            lastGen := (freshInode st, nextGen st (freshInode st)) :: st.lastGen }

/-- Modelled from the spec: the successful LookUpInode response of the
reference implementation — the fresh child, its generation, current
attributes, and zero expirations (caching disabled, the conservative
choice of §4.2). -/
def mintResp (st : FSState) : LookUpInodeResponse :=
  { Child := freshInode st, Generation := nextGen st (freshInode st),
    Attributes := { Size := 0 },
    AttributesExpiration := 0, EntryExpiration := 0 }

/-- Modelled from the spec: `LookUpInode` (§4.3).  `fault` is the
storage-fault oracle (an `IOError` from the backing store).  On success
it mints a fresh live child id with a generation per `nextGen` and fresh
expirations; it fails with `NotFound` when no such child exists, and
every failure leaves the state unchanged.  A call violating the
precondition that the parent is live (which the kernel guarantees not
to make) is surfaced as `IOError`. -/
def lookUpInode (env : Env) (st : FSState) (req : LookUpInodeRequest)
    (fault : Bool) : FSState × OpResult :=
  match fault, isValidB st req.Parent, env.childExists req.Parent req.Name with
  | true, _, _ => (st, .failed .ioError)
  | false, false, _ => (st, .failed .ioError)
  | false, true, false => (st, .failed .notFound)
  | false, true, true => (mintState st, .lookupOk (mintResp st))

/-- Modelled from the spec: `ForgetInode` (§4.3) — transitions the id to
retired (removed from the live set; its last generation stays recorded
so a reissue can bump it).  No failure is observable: an internal
cleanup fault (`fault = true`) is absorbed (counted as logged) rather
than propagated, and forgetting an unknown id is a no-op. -/
def forgetInode (st : FSState) (req : ForgetInodeRequest)
    (fault : Bool) : FSState × OpResult :=
  ({ st with live := st.live.filter (fun p => decide (p.1 ≠ req.ID)),
             absorbedFaults := st.absorbedFaults + (if fault then 1 else 0) },
   .forgetOk {})

/-- Modelled from the spec: the bookkeeping after a successful OpenDir —
the freshly minted handle (the current value of the handle mint
counter) becomes open and the counter advances. -/
def openState (st : FSState) : FSState :=
  { st with openHandles := st.nextHandle :: st.openHandles,
            nextHandle := st.nextHandle + 1 }

/-- Modelled from the spec: `OpenDir` (§4.3) — mints a fresh open
`HandleID`, independent of any other handle on the same inode; fails
with `NotADirectory` when the inode is not a directory and with
`IOError` on a storage fault (or on a call violating the liveness
precondition, which the kernel guarantees not to make).  Flags are
passed through opaquely.  Every failure leaves the state unchanged. -/
def openDir (env : Env) (st : FSState) (req : OpenDirRequest)
    (fault : Bool) : FSState × OpResult :=
  match fault, isValidB st req.Inode, env.isDir req.Inode with
  | true, _, _ => (st, .failed .ioError)
  | false, false, _ => (st, .failed .ioError)
  | false, true, false => (st, .failed .notADirectory)
  | false, true, true => (openState st, .opendirOk { Handle := st.nextHandle })

/-- Modelled from the spec: `ReleaseHandle` (§4.3) — transitions the
handle to released.  No failure is observable: an internal cleanup
fault (`fault = true`) is absorbed (counted as logged) rather than
propagated, and releasing an unknown handle is a no-op (the
implementation must not crash). -/
def releaseHandle (st : FSState) (req : ReleaseHandleRequest)
    (fault : Bool) : FSState × OpResult :=
  ({ st with openHandles := st.openHandles.filter (fun h => decide (h ≠ req.Handle)),
             absorbedFaults := st.absorbedFaults + (if fault then 1 else 0) },
   .releaseOk {})

/-- Modelled from the spec: one invocation of one of the four contract
operations, with its request and the storage/cleanup fault oracle for
that call. -/
inductive Op where
  | lookup (req : LookUpInodeRequest) (fault : Bool)
  | forget (req : ForgetInodeRequest) (fault : Bool)
  | opendir (req : OpenDirRequest) (fault : Bool)
  | release (req : ReleaseHandleRequest) (fault : Bool)
deriving Repr, DecidableEq

/-- Dispatch of one invocation to the corresponding operation (the
Dispatch/Transport collaborator of §2, restricted to the four typed
calls). -/
def step (env : Env) (st : FSState) (op : Op) : FSState × OpResult :=
  match op with
  | .lookup req fault => lookUpInode env st req fault
  | .forget req fault => forgetInode st req fault
  | .opendir req fault => openDir env st req fault
  | .release req fault => releaseHandle st req fault

/-- Running a sequence of invocations from a state (any interleaving of
atomic calls, serialized). -/
def run (env : Env) (st : FSState) (ops : List Op) : FSState :=
  ops.foldl (fun s op => (step env s op).1) st

/-- Modelled from the spec: the kernel-side attribute-cache consumer —
it may reuse cached attributes only when `AttributesExpiration` is not
the zero value and that deadline has not passed (src/file_system.go:166
"Leave at the zero value to disable caching"). -/
def attrCacheUsable (resp : LookUpInodeResponse) (now : Nat) : Bool :=
  decide (resp.AttributesExpiration ≠ 0 ∧ now < resp.AttributesExpiration)

/-- Modelled from the spec: the kernel-side entry-cache (dentry)
consumer — it may reuse the cached name to inode mapping only when
`EntryExpiration` is not the zero value and that deadline has not
passed (src/file_system.go:187). -/
def entryCacheUsable (resp : LookUpInodeResponse) (now : Nat) : Bool :=
  decide (resp.EntryExpiration ≠ 0 ∧ now < resp.EntryExpiration)

/-- Modelled from the spec: `fuseutil.NotImplementedFileSystem`
(referenced at src/file_system.go:17 and in the README but not shipped
under src/) — a total implementation of `LookUpInode` that fails with
the uniform `Unsupported` kind (ENOSYS) on every call. -/
def notImplLookUpInode (st : FSState) (_req : LookUpInodeRequest) :
    FSState × OpResult :=
  (st, .failed .unsupported)

/-- Modelled from the spec: the `Unsupported` fallback for `ForgetInode`
of `fuseutil.NotImplementedFileSystem`. -/
def notImplForgetInode (st : FSState) (_req : ForgetInodeRequest) :
    FSState × OpResult :=
  (st, .failed .unsupported)

/-- Modelled from the spec: the `Unsupported` fallback for `OpenDir` of
`fuseutil.NotImplementedFileSystem`. -/
def notImplOpenDir (st : FSState) (_req : OpenDirRequest) :
    FSState × OpResult :=
  (st, .failed .unsupported)

/-- Modelled from the spec: the `Unsupported` fallback for
`ReleaseHandle` of `fuseutil.NotImplementedFileSystem`. -/
def notImplReleaseHandle (st : FSState) (_req : ReleaseHandleRequest) :
    FSState × OpResult :=
  (st, .failed .unsupported)

/-! ### Helper lemmas -/

theorem le_foldr_max (l : List Nat) (a : Nat) : a ≤ l.foldr max a := by
  induction l with
  | nil => exact le_refl a
  | cons x t ih => exact le_trans ih (le_max_right x _)

theorem mem_le_foldr_max (l : List Nat) (a : Nat) :
    ∀ x ∈ l, x ≤ l.foldr max a := by
  induction l with
  | nil => intro x hx; cases hx
  | cons y t ih =>
    intro x hx
    simp only [List.foldr]
    rcases List.mem_cons.mp hx with h | h
    · subst h
      exact le_max_left x _
    · exact le_trans (ih x h) (le_max_right y _)

theorem freshInode_not_mem (st : FSState) : freshInode st ∉ liveIds st := by
  intro hmem
  have h := mem_le_foldr_max (liveIds st) RootInodeID _ hmem
  exact Nat.lt_irrefl _ (Nat.lt_of_succ_le h)

theorem freshInode_ne_root (st : FSState) : freshInode st ≠ RootInodeID := by
  have h := le_foldr_max (liveIds st) RootInodeID
  exact (Nat.lt_succ_of_le h).ne'

theorem lookupGen_mem {l : List (InodeID × GenerationNumber)} {id : InodeID}
    {g : GenerationNumber} (h : lookupGen l id = some g) : (id, g) ∈ l := by
  induction l with
  | nil => simp [lookupGen] at h
  | cons p t ih =>
    rcases p with ⟨i, gi⟩
    simp only [lookupGen] at h
    split at h
    · rename_i hi
      injection h with hgg
      subst hi
      subst hgg
      exact List.mem_cons_self _ _
    · exact List.mem_cons_of_mem _ (ih h)

theorem U64_pos : 0 < U64 := by
  simp only [U64]
  positivity

theorem U64_eq : U64 = 18446744073709551616 := by norm_num [U64]

theorem bump_ne (g : Nat) : (g + 1) % U64 ≠ g := by
  rw [U64_eq]
  omega

theorem nextGen_lt (st : FSState) (id : InodeID) : nextGen st id < U64 := by
  unfold nextGen
  cases lookupGen st.lastGen id with
  | none => exact U64_pos
  | some g => exact Nat.mod_lt _ U64_pos

theorem isValidB_eq_true {st : FSState} {id : InodeID} :
    isValidB st id = true ↔ isValid st id := by
  simp [isValidB]

theorem mem_map_fst_filter (l : List (Nat × Nat)) (idr c : Nat) :
    (c ∈ (l.filter (fun p => decide (p.1 ≠ idr))).map Prod.fst) ↔
      (c ∈ l.map Prod.fst ∧ c ≠ idr) := by
  constructor
  · intro h
    rcases List.mem_map.mp h with ⟨p, hp, rfl⟩
    rcases List.mem_filter.mp hp with ⟨hmem, hdec⟩
    exact ⟨List.mem_map.mpr ⟨p, hmem, rfl⟩, of_decide_eq_true hdec⟩
  · rintro ⟨h, hne⟩
    rcases List.mem_map.mp h with ⟨p, hp, rfl⟩
    exact List.mem_map.mpr ⟨p, List.mem_filter.mpr ⟨hp, decide_eq_true hne⟩, rfl⟩

theorem mem_filter_ne (l : List Nat) (idr c : Nat) :
    (c ∈ l.filter (fun h => decide (h ≠ idr))) ↔ (c ∈ l ∧ c ≠ idr) := by
  constructor
  · intro h
    rcases List.mem_filter.mp h with ⟨hmem, hdec⟩
    exact ⟨hmem, of_decide_eq_true hdec⟩
  · rintro ⟨h, hne⟩
    exact List.mem_filter.mpr ⟨h, decide_eq_true hne⟩

/-! ### Characterizations of the operations -/

theorem lookUpInode_ok {env : Env} {st st' : FSState} {req : LookUpInodeRequest}
    {fault : Bool} {resp : LookUpInodeResponse}
    (h : lookUpInode env st req fault = (st', .lookupOk resp)) :
    fault = false ∧ isValid st req.Parent ∧
      env.childExists req.Parent req.Name = true ∧
      resp = mintResp st ∧ st' = mintState st := by
  unfold lookUpInode at h
  cases fault with
  | true => cases h
  | false =>
    cases hv : isValidB st req.Parent <;> rw [hv] at h
    · cases h
    · cases hc : env.childExists req.Parent req.Name <;> rw [hc] at h
      · cases h
      · injection h with h1 h2
        injection h2 with h2
        subst h1
        subst h2
        exact ⟨rfl, isValidB_eq_true.mp hv, rfl, rfl, rfl⟩

theorem lookUpInode_failed {env : Env} {st st' : FSState}
    {req : LookUpInodeRequest} {fault : Bool} {e : FuseError}
    (h : lookUpInode env st req fault = (st', .failed e)) : st' = st := by
  unfold lookUpInode at h
  cases fault with
  | true =>
    injection h with h1 h2
    exact h1.symm
  | false =>
    cases hv : isValidB st req.Parent <;> rw [hv] at h
    · injection h with h1 h2
      exact h1.symm
    · cases hc : env.childExists req.Parent req.Name <;> rw [hc] at h
      · injection h with h1 h2
        exact h1.symm
      · cases h

theorem lookUpInode_notFound {env : Env} {st : FSState}
    {req : LookUpInodeRequest} (hv : isValid st req.Parent)
    (hc : env.childExists req.Parent req.Name = false) :
    lookUpInode env st req false = (st, .failed .notFound) := by
  have hvb : isValidB st req.Parent = true := isValidB_eq_true.mpr hv
  unfold lookUpInode
  rw [hvb, hc]

theorem forgetInode_eq (st : FSState) (req : ForgetInodeRequest) (fault : Bool) :
    forgetInode st req fault =
      ({ st with live := st.live.filter (fun p => decide (p.1 ≠ req.ID)),
                 absorbedFaults := st.absorbedFaults + (if fault then 1 else 0) },
       .forgetOk {}) := rfl

theorem releaseHandle_eq (st : FSState) (req : ReleaseHandleRequest) (fault : Bool) :
    releaseHandle st req fault =
      ({ st with
         openHandles := st.openHandles.filter (fun h => decide (h ≠ req.Handle)),
         absorbedFaults := st.absorbedFaults + (if fault then 1 else 0) },
       .releaseOk {}) := rfl

theorem openDir_ok {env : Env} {st st' : FSState} {req : OpenDirRequest}
    {fault : Bool} {resp : OpenDirResponse}
    (h : openDir env st req fault = (st', .opendirOk resp)) :
    resp.Handle = st.nextHandle ∧ st' = openState st := by
  unfold openDir at h
  cases fault with
  | true => cases h
  | false =>
    cases hv : isValidB st req.Inode <;> rw [hv] at h
    · cases h
    · cases hd : env.isDir req.Inode <;> rw [hd] at h
      · cases h
      · injection h with h1 h2
        injection h2 with h2
        subst h1
        subst h2
        exact ⟨rfl, rfl⟩

theorem openDir_failed {env : Env} {st st' : FSState} {req : OpenDirRequest}
    {fault : Bool} {e : FuseError}
    (h : openDir env st req fault = (st', .failed e)) : st' = st := by
  unfold openDir at h
  cases fault with
  | true =>
    injection h with h1 h2
    exact h1.symm
  | false =>
    cases hv : isValidB st req.Inode <;> rw [hv] at h
    · injection h with h1 h2
      exact h1.symm
    · cases hd : env.isDir req.Inode <;> rw [hd] at h
      · injection h with h1 h2
        exact h1.symm
      · cases h

theorem lookUpInode_cases (env : Env) (st : FSState) (req : LookUpInodeRequest)
    (fault : Bool) :
    lookUpInode env st req fault = (mintState st, .lookupOk (mintResp st)) ∨
      ∃ e, lookUpInode env st req fault = (st, .failed e) := by
  unfold lookUpInode
  cases fault with
  | true => exact Or.inr ⟨.ioError, rfl⟩
  | false =>
    cases isValidB st req.Parent with
    | false => exact Or.inr ⟨.ioError, rfl⟩
    | true =>
      cases env.childExists req.Parent req.Name with
      | false => exact Or.inr ⟨.notFound, rfl⟩
      | true => exact Or.inl rfl

theorem openDir_cases (env : Env) (st : FSState) (req : OpenDirRequest)
    (fault : Bool) :
    openDir env st req fault = (openState st, .opendirOk { Handle := st.nextHandle }) ∨
      ∃ e, openDir env st req fault = (st, .failed e) := by
  unfold openDir
  cases fault with
  | true => exact Or.inr ⟨.ioError, rfl⟩
  | false =>
    cases isValidB st req.Inode with
    | false => exact Or.inr ⟨.ioError, rfl⟩
    | true =>
      cases env.isDir req.Inode with
      | false => exact Or.inr ⟨.notADirectory, rfl⟩
      | true => exact Or.inl rfl

theorem liveIds_mintState (st : FSState) :
    liveIds (mintState st) = freshInode st :: liveIds st := rfl

theorem liveIds_forget (st : FSState) (req : ForgetInodeRequest) (fault : Bool)
    (c : InodeID) :
    (c ∈ liveIds (forgetInode st req fault).1) ↔ (c ∈ liveIds st ∧ c ≠ req.ID) :=
  mem_map_fst_filter st.live req.ID c

theorem openHandles_release (st : FSState) (req : ReleaseHandleRequest)
    (fault : Bool) (x : HandleID) :
    (x ∈ (releaseHandle st req fault).1.openHandles) ↔
      (x ∈ st.openHandles ∧ x ≠ req.Handle) :=
  mem_filter_ne st.openHandles req.Handle x

/-! ### The bookkeeping invariant -/

/-- Modelled from the spec: the bookkeeping invariant a conforming
implementation maintains — no two concurrently-live inode ids are equal
(§8 Uniqueness), every recorded generation fits in a `uint64`, no two
currently-open handles are equal, and every open handle was minted
below the mint counter. -/
structure Inv (st : FSState) : Prop where
  nodupLive : (liveIds st).Nodup
  genLt : ∀ p ∈ st.lastGen, p.2 < U64
  nodupHandles : st.openHandles.Nodup
  handlesLt : ∀ h ∈ st.openHandles, h < st.nextHandle

theorem inv_init : Inv initState :=
  ⟨by simp [liveIds, initState], by simp [initState],
   by simp [initState], by simp [initState]⟩

theorem inv_lookUpInode {env : Env} {st : FSState} {req : LookUpInodeRequest}
    {fault : Bool} (h : Inv st) : Inv (lookUpInode env st req fault).1 := by
  rcases lookUpInode_cases env st req fault with he | ⟨e, he⟩ <;> rw [he]
  · refine ⟨?_, ?_, h.nodupHandles, h.handlesLt⟩
    · rw [liveIds_mintState]
      exact List.nodup_cons.mpr ⟨freshInode_not_mem st, h.nodupLive⟩
    · intro p hp
      have hp' : p ∈ (freshInode st, nextGen st (freshInode st)) :: st.lastGen := hp
      rcases List.mem_cons.mp hp' with rfl | hp''
      · exact nextGen_lt st _
      · exact h.genLt p hp''
  · exact h

theorem inv_forgetInode {st : FSState} {req : ForgetInodeRequest} {fault : Bool}
    (h : Inv st) : Inv (forgetInode st req fault).1 := by
  refine ⟨?_, ?_, h.nodupHandles, h.handlesLt⟩
  · exact List.Nodup.sublist ((List.filter_sublist _).map Prod.fst) h.nodupLive
  · intro p hp
    exact h.genLt p hp

theorem inv_openDir {env : Env} {st : FSState} {req : OpenDirRequest}
    {fault : Bool} (h : Inv st) : Inv (openDir env st req fault).1 := by
  rcases openDir_cases env st req fault with he | ⟨e, he⟩ <;> rw [he]
  · refine ⟨h.nodupLive, h.genLt, ?_, ?_⟩
    · refine List.nodup_cons.mpr ⟨?_, h.nodupHandles⟩
      intro hmem
      exact Nat.lt_irrefl _ (h.handlesLt _ hmem)
    · intro x hx
      have hx' : x ∈ st.nextHandle :: st.openHandles := hx
      show x < st.nextHandle + 1
      rcases List.mem_cons.mp hx' with rfl | hx''
      · exact Nat.lt_succ_self _
      · exact Nat.lt_succ_of_lt (h.handlesLt _ hx'')
  · exact h

theorem inv_releaseHandle {st : FSState} {req : ReleaseHandleRequest}
    {fault : Bool} (h : Inv st) : Inv (releaseHandle st req fault).1 := by
  refine ⟨h.nodupLive, h.genLt, ?_, ?_⟩
  · exact List.Nodup.sublist (List.filter_sublist _) h.nodupHandles
  · intro x hx
    exact h.handlesLt x (List.mem_of_mem_filter hx)

theorem inv_step (env : Env) (st : FSState) (op : Op) (h : Inv st) :
    Inv (step env st op).1 := by
  cases op with
  | lookup req fault => exact inv_lookUpInode h
  | forget req fault => exact inv_forgetInode h
  | opendir req fault => exact inv_openDir h
  | release req fault => exact inv_releaseHandle h

theorem inv_run (env : Env) (ops : List Op) {st : FSState} (h : Inv st) :
    Inv (run env st ops) := by
  induction ops generalizing st with
  | nil => exact h
  | cons op t ih => exact ih (inv_step env st op h)

theorem isValid_def (st : FSState) (c : InodeID) :
    isValid st c ↔ (c = RootInodeID ∨ c ∈ liveIds st) := Iff.rfl

/-- A concrete demonstration environment: every directory contains one
child named "bar", and every inode denotes a directory. -/
def demoEnv : Env :=
  { childExists := fun _ name => name == "bar", isDir := fun _ => true }

/-! ### Claims -/

/-- C1: every InodeID returned as Child in a LookUpInode response
remains valid (resolvable) from the moment of that response until a
matching ForgetInode request retires it, and after ForgetInode(id),
isValid(id) is false until the implementation reissues the ID as a
fresh mint.  Stated as: (1) a returned child is valid in the
post-response state; (2) validity is preserved by every step that is
not a ForgetInode of that id; (3) immediately after ForgetInode(id) a
non-root id (in particular any minted child) is invalid; (4) an invalid
id becomes valid only through a LookUpInode response returning it. -/
theorem c1_inode_valid_until_forget :
    (∀ (env : Env) (st st' : FSState) (req : LookUpInodeRequest) (fault : Bool)
        (resp : LookUpInodeResponse),
        step env st (.lookup req fault) = (st', .lookupOk resp) →
        isValid st' resp.Child)
    ∧ (∀ (env : Env) (st : FSState) (op : Op) (c : InodeID),
        isValid st c →
        (∀ (req : ForgetInodeRequest) (fault : Bool),
          op = .forget req fault → req.ID ≠ c) →
        isValid (step env st op).1 c)
    ∧ (∀ (env : Env) (st : FSState) (req : ForgetInodeRequest) (fault : Bool),
        req.ID ≠ RootInodeID →
        ¬ isValid (step env st (.forget req fault)).1 req.ID)
    ∧ (∀ (env : Env) (st : FSState) (op : Op) (c : InodeID),
        ¬ isValid st c → isValid (step env st op).1 c →
        ∃ (req : LookUpInodeRequest) (fault : Bool) (st' : FSState)
          (resp : LookUpInodeResponse),
          op = .lookup req fault ∧ step env st op = (st', .lookupOk resp) ∧
          resp.Child = c) := by
  refine ⟨?_, ?_, ?_, ?_⟩
  · intro env st st' req fault resp h
    have h' : lookUpInode env st req fault = (st', .lookupOk resp) := h
    obtain ⟨-, -, -, hresp, hst⟩ := lookUpInode_ok h'
    subst hresp
    subst hst
    refine Or.inr ?_
    rw [liveIds_mintState]
    exact List.mem_cons_self _ _
  · intro env st op c hval hnf
    cases op with
    | lookup req fault =>
      show isValid (lookUpInode env st req fault).1 c
      rcases lookUpInode_cases env st req fault with he | ⟨e, he⟩ <;> rw [he]
      · rcases (isValid_def st c).mp hval with hr | hm
        · exact Or.inl hr
        · refine Or.inr ?_
          rw [liveIds_mintState]
          exact List.mem_cons_of_mem _ hm
      · exact hval
    | forget req fault =>
      have hne : req.ID ≠ c := hnf req fault rfl
      show isValid (forgetInode st req fault).1 c
      rcases (isValid_def st c).mp hval with hr | hm
      · exact Or.inl hr
      · exact Or.inr ((liveIds_forget st req fault c).mpr ⟨hm, hne.symm⟩)
    | opendir req fault =>
      show isValid (openDir env st req fault).1 c
      rcases openDir_cases env st req fault with he | ⟨e, he⟩ <;> rw [he] <;> exact hval
    | release req fault => exact hval
  · intro env st req fault hroot hval
    rcases (isValid_def _ _).mp hval with hr | hm
    · exact hroot hr
    · have hm' : req.ID ∈ liveIds (forgetInode st req fault).1 := hm
      exact ((liveIds_forget st req fault req.ID).mp hm').2 rfl
  · intro env st op c hnv hv
    cases op with
    | lookup req fault =>
      rcases lookUpInode_cases env st req fault with he | ⟨e, he⟩
      · have hv' : isValid (lookUpInode env st req fault).1 c := hv
        rw [he] at hv'
        rcases (isValid_def _ _).mp hv' with hr | hm
        · exact absurd (Or.inl hr) hnv
        · have hm' : c ∈ freshInode st :: liveIds st := hm
          rcases List.mem_cons.mp hm' with rfl | hold
          · exact ⟨req, fault, mintState st, mintResp st, rfl, he, rfl⟩
          · exact absurd (Or.inr hold) hnv
      · have hv' : isValid (lookUpInode env st req fault).1 c := hv
        rw [he] at hv'
        exact absurd hv' hnv
    | forget req fault =>
      exfalso
      apply hnv
      rcases (isValid_def _ _).mp hv with hr | hm
      · exact Or.inl hr
      · have hm' : c ∈ liveIds (forgetInode st req fault).1 := hm
        exact Or.inr ((liveIds_forget st req fault c).mp hm').1
    | opendir req fault =>
      exfalso
      apply hnv
      have hv' : isValid (openDir env st req fault).1 c := hv
      rcases openDir_cases env st req fault with he | ⟨e, he⟩ <;> rw [he] at hv' <;>
        exact hv'
    | release req fault => exact absurd hv hnv

/-- Witness for C1: looking up "bar" under the root of the initial
state succeeds with child id 2, which is valid in the resulting
state. -/
theorem c1_witness :
    isValid
      { live := [(2, 0)], lastGen := [(2, 0)], openHandles := [],
        nextHandle := 1, absorbedFaults := 0 }
      ({ Child := 2, Generation := 0, Attributes := { Size := 0 },
         AttributesExpiration := 0, EntryExpiration := 0 } : LookUpInodeResponse).Child :=
  c1_inode_valid_until_forget.1 demoEnv initState
    { live := [(2, 0)], lastGen := [(2, 0)], openHandles := [],
      nextHandle := 1, absorbedFaults := 0 }
    { Parent := RootInodeID, Name := "bar" } false
    { Child := 2, Generation := 0, Attributes := { Size := 0 },
      AttributesExpiration := 0, EntryExpiration := 0 }
    (by decide)

/-- C2: when a numeric InodeID that was retired (no longer live, but
with a recorded previous generation) is reissued by a LookUpInode
response, the generation paired with the reissue differs from the
generation previously paired with that value; and nothing else forces a
change — a first-time mint carries generation 0 independently of the
histories of other ids. -/
theorem c2_generation_bump_on_reuse :
    (∀ (env : Env) (st st' : FSState) (req : LookUpInodeRequest) (fault : Bool)
        (resp : LookUpInodeResponse) (g : GenerationNumber),
        resp.Child ∉ liveIds st →
        lookupGen st.lastGen resp.Child = some g →
        step env st (.lookup req fault) = (st', .lookupOk resp) →
        resp.Generation ≠ g)
    ∧ (∀ (env : Env) (st st' : FSState) (req : LookUpInodeRequest) (fault : Bool)
        (resp : LookUpInodeResponse),
        lookupGen st.lastGen resp.Child = none →
        step env st (.lookup req fault) = (st', .lookupOk resp) →
        resp.Generation = 0) := by
  constructor
  · intro env st st' req fault resp g hretired hprev h
    have h' : lookUpInode env st req fault = (st', .lookupOk resp) := h
    obtain ⟨-, -, -, hresp, -⟩ := lookUpInode_ok h'
    subst hresp
    have hprev' : lookupGen st.lastGen (freshInode st) = some g := hprev
    show nextGen st (freshInode st) ≠ g
    unfold nextGen
    rw [hprev']
    exact bump_ne g
  · intro env st st' req fault resp hprev h
    have h' : lookUpInode env st req fault = (st', .lookupOk resp) := h
    obtain ⟨-, -, -, hresp, -⟩ := lookUpInode_ok h'
    subst hresp
    have hprev' : lookupGen st.lastGen (freshInode st) = none := hprev
    show nextGen st (freshInode st) = 0
    unfold nextGen
    rw [hprev']

/-- Witness for C2: after minting id 2 with generation 0 and forgetting
it, a second lookup reissues the numeric value 2 with generation 1,
which differs from the previous generation 0. -/
theorem c2_witness :
    ({ Child := 2, Generation := 1, Attributes := { Size := 0 },
       AttributesExpiration := 0, EntryExpiration := 0 } :
        LookUpInodeResponse).Generation ≠ 0 :=
  c2_generation_bump_on_reuse.1 demoEnv
    { live := [], lastGen := [(2, 0)], openHandles := [],
      nextHandle := 1, absorbedFaults := 0 }
    { live := [(2, 1)], lastGen := [(2, 1), (2, 0)], openHandles := [],
      nextHandle := 1, absorbedFaults := 0 }
    { Parent := RootInodeID, Name := "bar" } false
    { Child := 2, Generation := 1, Attributes := { Size := 0 },
      AttributesExpiration := 0, EntryExpiration := 0 }
    0 (by decide) (by decide) (by decide)

/-- C3: over every sequence of calls from the initial state no two
concurrently-live InodeIDs are equal in value; a minted child is never
the reserved RootInodeID; and RootInodeID is pre-live — valid in the
initial state before the implementation has ever returned it, and in
every reachable state. -/
theorem c3_uniqueness_of_live_ids :
    (∀ (env : Env) (ops : List Op), (liveIds (run env initState ops)).Nodup)
    ∧ (∀ (env : Env) (st st' : FSState) (req : LookUpInodeRequest) (fault : Bool)
        (resp : LookUpInodeResponse),
        step env st (.lookup req fault) = (st', .lookupOk resp) →
        resp.Child ≠ RootInodeID)
    ∧ isValid initState RootInodeID
    ∧ (∀ (env : Env) (ops : List Op), isValid (run env initState ops) RootInodeID) := by
  refine ⟨?_, ?_, Or.inl rfl, ?_⟩
  · intro env ops
    exact (inv_run env ops inv_init).nodupLive
  · intro env st st' req fault resp h
    have h' : lookUpInode env st req fault = (st', .lookupOk resp) := h
    obtain ⟨-, -, -, hresp, -⟩ := lookUpInode_ok h'
    subst hresp
    exact freshInode_ne_root st
  · intro env ops
    exact Or.inl rfl

/-- Witness for C3: the child minted by the first lookup, id 2, is not
the reserved RootInodeID. -/
theorem c3_witness :
    ({ Child := 2, Generation := 0, Attributes := { Size := 0 },
       AttributesExpiration := 0, EntryExpiration := 0 } :
        LookUpInodeResponse).Child ≠ RootInodeID :=
  c3_uniqueness_of_live_ids.2.1 demoEnv initState
    { live := [(2, 0)], lastGen := [(2, 0)], openHandles := [],
      nextHandle := 1, absorbedFaults := 0 }
    { Parent := RootInodeID, Name := "bar" } false
    { Child := 2, Generation := 0, Attributes := { Size := 0 },
      AttributesExpiration := 0, EntryExpiration := 0 }
    (by decide)

/-- C4: every successful OpenDir mints a fresh HandleID, distinct from
every currently-open handle (in particular from other handles on the
same inode), and handles are strictly linear: (1) the minted handle was
not open before and is open after; (2) an open handle stays open under
every step that is not a ReleaseHandle of it; (3) immediately after
ReleaseHandle the handle is retired; (4) a non-open handle value
becomes open only through a fresh OpenDir mint returning it; (5) the
open-handle set of every reachable state has no duplicates. -/
theorem c4_handle_linearity :
    (∀ (env : Env) (st st' : FSState) (req : OpenDirRequest) (fault : Bool)
        (resp : OpenDirResponse),
        Inv st →
        step env st (.opendir req fault) = (st', .opendirOk resp) →
        resp.Handle ∉ st.openHandles ∧ resp.Handle ∈ st'.openHandles)
    ∧ (∀ (env : Env) (st : FSState) (op : Op) (x : HandleID),
        x ∈ st.openHandles →
        (∀ (req : ReleaseHandleRequest) (fault : Bool),
          op = .release req fault → req.Handle ≠ x) →
        x ∈ (step env st op).1.openHandles)
    ∧ (∀ (env : Env) (st : FSState) (req : ReleaseHandleRequest) (fault : Bool),
        req.Handle ∉ (step env st (.release req fault)).1.openHandles)
    ∧ (∀ (env : Env) (st : FSState) (op : Op) (x : HandleID),
        x ∉ st.openHandles → x ∈ (step env st op).1.openHandles →
        ∃ (req : OpenDirRequest) (fault : Bool) (st' : FSState)
          (resp : OpenDirResponse),
          op = .opendir req fault ∧ step env st op = (st', .opendirOk resp) ∧
          resp.Handle = x)
    ∧ (∀ (env : Env) (ops : List Op),
        (run env initState ops).openHandles.Nodup) := by
  refine ⟨?_, ?_, ?_, ?_, ?_⟩
  · intro env st st' req fault resp hInv h
    have h' : openDir env st req fault = (st', .opendirOk resp) := h
    obtain ⟨hh, hst⟩ := openDir_ok h'
    subst hst
    constructor
    · intro hmem
      rw [hh] at hmem
      exact Nat.lt_irrefl _ (hInv.handlesLt _ hmem)
    · rw [hh]
      exact List.mem_cons_self _ _
  · intro env st op x hmem hnr
    cases op with
    | lookup req fault =>
      show x ∈ (lookUpInode env st req fault).1.openHandles
      rcases lookUpInode_cases env st req fault with he | ⟨e, he⟩ <;> rw [he] <;>
        exact hmem
    | forget req fault => exact hmem
    | opendir req fault =>
      show x ∈ (openDir env st req fault).1.openHandles
      rcases openDir_cases env st req fault with he | ⟨e, he⟩ <;> rw [he]
      · exact List.mem_cons_of_mem _ hmem
      · exact hmem
    | release req fault =>
      have hne : req.Handle ≠ x := hnr req fault rfl
      exact (openHandles_release st req fault x).mpr ⟨hmem, hne.symm⟩
  · intro env st req fault hmem
    exact ((openHandles_release st req fault req.Handle).mp hmem).2 rfl
  · intro env st op x hno hyes
    cases op with
    | lookup req fault =>
      exfalso
      apply hno
      have hyes' : x ∈ (lookUpInode env st req fault).1.openHandles := hyes
      rcases lookUpInode_cases env st req fault with he | ⟨e, he⟩ <;> rw [he] at hyes' <;>
        exact hyes'
    | forget req fault => exact absurd hyes hno
    | opendir req fault =>
      have hyes' : x ∈ (openDir env st req fault).1.openHandles := hyes
      rcases openDir_cases env st req fault with he | ⟨e, he⟩
      · rw [he] at hyes'
        have hyes'' : x ∈ st.nextHandle :: st.openHandles := hyes'
        rcases List.mem_cons.mp hyes'' with rfl | hold
        · exact ⟨req, fault, openState st, { Handle := st.nextHandle }, rfl, he, rfl⟩
        · exact absurd hold hno
      · rw [he] at hyes'
        exact absurd hyes' hno
    | release req fault =>
      exfalso
      exact hno ((openHandles_release st req fault x).mp hyes).1
  · intro env ops
    exact (inv_run env ops inv_init).nodupHandles

/-- Witness for C4: opening the root directory of the initial state
mints handle 1, which was not open before and is open afterwards. -/
theorem c4_witness :
    ({ Handle := 1 } : OpenDirResponse).Handle ∉ initState.openHandles ∧
      ({ Handle := 1 } : OpenDirResponse).Handle ∈
        ({ live := [], lastGen := [], openHandles := [1], nextHandle := 2,
           absorbedFaults := 0 } : FSState).openHandles :=
  c4_handle_linearity.1 demoEnv initState
    { live := [], lastGen := [], openHandles := [1], nextHandle := 2,
      absorbedFaults := 0 }
    { Inode := RootInodeID, Flags := 0 } false { Handle := 1 }
    inv_init (by decide)

/-- C5: AttributesExpiration and EntryExpiration are independent
deadlines — each cache axis is decided by its own field alone, a
zero-value timestamp disables caching for that axis only (the kernel
must always revalidate it), the other axis keeps its own deadline, and
neither usability implies the other. -/
theorem c5_expiration_independence :
    (∀ (resp : LookUpInodeResponse) (now : Nat),
        resp.AttributesExpiration = 0 → attrCacheUsable resp now = false)
    ∧ (∀ (resp : LookUpInodeResponse) (now : Nat),
        resp.EntryExpiration = 0 → entryCacheUsable resp now = false)
    ∧ (∀ (r1 r2 : LookUpInodeResponse) (now : Nat),
        r1.AttributesExpiration = r2.AttributesExpiration →
        attrCacheUsable r1 now = attrCacheUsable r2 now)
    ∧ (∀ (r1 r2 : LookUpInodeResponse) (now : Nat),
        r1.EntryExpiration = r2.EntryExpiration →
        entryCacheUsable r1 now = entryCacheUsable r2 now)
    ∧ (∀ (resp : LookUpInodeResponse) (now : Nat),
        resp.AttributesExpiration = 0 → resp.EntryExpiration ≠ 0 →
        (entryCacheUsable resp now = true ↔ now < resp.EntryExpiration))
    ∧ (∃ (resp : LookUpInodeResponse) (now : Nat),
        attrCacheUsable resp now = false ∧ entryCacheUsable resp now = true)
    ∧ (∃ (resp : LookUpInodeResponse) (now : Nat),
        attrCacheUsable resp now = true ∧ entryCacheUsable resp now = false) := by
  refine ⟨?_, ?_, ?_, ?_, ?_, ?_, ?_⟩
  · intro resp now h
    simp [attrCacheUsable, h]
  · intro resp now h
    simp [entryCacheUsable, h]
  · intro r1 r2 now h
    simp [attrCacheUsable, h]
  · intro r1 r2 now h
    simp [entryCacheUsable, h]
  · intro resp now h0 hne
    simp [entryCacheUsable, hne]
  · exact ⟨{ Child := 2, Generation := 0, Attributes := { Size := 0 },
             AttributesExpiration := 0, EntryExpiration := 60 }, 30,
           by decide, by decide⟩
  · exact ⟨{ Child := 2, Generation := 0, Attributes := { Size := 0 },
             AttributesExpiration := 60, EntryExpiration := 0 }, 30,
           by decide, by decide⟩

/-- Witness for C5: a response with zero AttributesExpiration and
EntryExpiration 60, read at time 30 — attributes may not be cached
while the entry axis keeps its own deadline. -/
theorem c5_witness :
    attrCacheUsable
      { Child := 2, Generation := 0, Attributes := { Size := 0 },
        AttributesExpiration := 0, EntryExpiration := 60 } 30 = false ∧
      (entryCacheUsable
        { Child := 2, Generation := 0, Attributes := { Size := 0 },
          AttributesExpiration := 0, EntryExpiration := 60 } 30 = true ↔ 30 < 60) :=
  ⟨c5_expiration_independence.1
    { Child := 2, Generation := 0, Attributes := { Size := 0 },
      AttributesExpiration := 0, EntryExpiration := 60 } 30 rfl,
   c5_expiration_independence.2.2.2.2.1
    { Child := 2, Generation := 0, Attributes := { Size := 0 },
      AttributesExpiration := 0, EntryExpiration := 60 } 30 rfl (by decide)⟩

/-- C6: ForgetInode and ReleaseHandle are failure-free from the
contract's perspective — every call returns the (empty) success
acknowledgment, never a failure, and an internal fault during cleanup
is absorbed (counted as logged) rather than propagated. -/
theorem c6_cleanup_failure_free :
    (∀ (env : Env) (st : FSState) (req : ForgetInodeRequest) (fault : Bool),
        ∃ st', step env st (.forget req fault) = (st', .forgetOk {}))
    ∧ (∀ (env : Env) (st : FSState) (req : ReleaseHandleRequest) (fault : Bool),
        ∃ st', step env st (.release req fault) = (st', .releaseOk {}))
    ∧ (∀ (env : Env) (st : FSState) (req : ForgetInodeRequest),
        (step env st (.forget req true)).1.absorbedFaults = st.absorbedFaults + 1)
    ∧ (∀ (env : Env) (st : FSState) (req : ReleaseHandleRequest),
        (step env st (.release req true)).1.absorbedFaults = st.absorbedFaults + 1) := by
  refine ⟨?_, ?_, ?_, ?_⟩
  · intro env st req fault
    exact ⟨_, rfl⟩
  · intro env st req fault
    exact ⟨_, rfl⟩
  · intro env st req
    rfl
  · intro env st req
    rfl

/-- C7: on a live parent, when no child with the requested name exists
(and the backing store does not fault), LookUpInode fails with
NotFound; and every LookUpInode failure leaves the implementation's
bookkeeping state unchanged — each call is atomic success-or-failure. -/
theorem c7_lookup_notfound_no_side_effect :
    (∀ (env : Env) (st : FSState) (req : LookUpInodeRequest),
        isValid st req.Parent →
        env.childExists req.Parent req.Name = false →
        step env st (.lookup req false) = (st, .failed .notFound))
    ∧ (∀ (env : Env) (st st' : FSState) (req : LookUpInodeRequest) (fault : Bool)
        (e : FuseError),
        step env st (.lookup req fault) = (st', .failed e) → st' = st) := by
  constructor
  · intro env st req hv hc
    exact lookUpInode_notFound hv hc
  · intro env st st' req fault e h
    exact lookUpInode_failed h

/-- Witness for C7: looking up the missing name "missing" under the
root of the initial state fails with NotFound and leaves the state
unchanged. -/
theorem c7_witness :
    step demoEnv initState (.lookup { Parent := RootInodeID, Name := "missing" } false) =
      (initState, .failed .notFound) :=
  c7_lookup_notfound_no_side_effect.1 demoEnv initState
    { Parent := RootInodeID, Name := "missing" } (Or.inl rfl) (by decide)

/-- C8: an implementation that does not support the operations still
provides a total function for each of the four, which fails with the
uniform Unsupported kind (ENOSYS) on every call rather than omitting
the operation. -/
theorem c8_unsupported_total :
    (∀ (st : FSState) (req : LookUpInodeRequest),
        notImplLookUpInode st req = (st, .failed .unsupported))
    ∧ (∀ (st : FSState) (req : ForgetInodeRequest),
        notImplForgetInode st req = (st, .failed .unsupported))
    ∧ (∀ (st : FSState) (req : OpenDirRequest),
        notImplOpenDir st req = (st, .failed .unsupported))
    ∧ (∀ (st : FSState) (req : ReleaseHandleRequest),
        notImplReleaseHandle st req = (st, .failed .unsupported)) :=
  ⟨fun _ _ => rfl, fun _ _ => rfl, fun _ _ => rfl, fun _ _ => rfl⟩

/-- C9: there is no cancellation in the contract — every invocation of
any of the four operations is a total function of the state and the
request alone (no parameter can cancel it), returning exactly one
result, and that result is either a typed success response or a
failure kind. -/
theorem c9_single_result_no_cancellation :
    (∀ (env : Env) (st : FSState) (op : Op),
        ∃! out : FSState × OpResult, step env st op = out)
    ∧ (∀ (env : Env) (st : FSState) (op : Op),
        ∃ (st' : FSState) (r : OpResult), step env st op = (st', r) ∧
          ((∃ resp, r = .lookupOk resp) ∨ (∃ resp, r = .forgetOk resp) ∨
           (∃ resp, r = .opendirOk resp) ∨ (∃ resp, r = .releaseOk resp) ∨
           (∃ e, r = .failed e))) := by
  constructor
  · intro env st op
    exact ⟨step env st op, rfl, fun y hy => hy.symm⟩
  · intro env st op
    refine ⟨(step env st op).1, (step env st op).2, rfl, ?_⟩
    cases (step env st op).2 with
    | lookupOk resp => exact Or.inl ⟨resp, rfl⟩
    | forgetOk resp => exact Or.inr (Or.inl ⟨resp, rfl⟩)
    | opendirOk resp => exact Or.inr (Or.inr (Or.inl ⟨resp, rfl⟩))
    | releaseOk resp => exact Or.inr (Or.inr (Or.inr (Or.inl ⟨resp, rfl⟩)))
    | failed e => exact Or.inr (Or.inr (Or.inr (Or.inr ⟨e, rfl⟩)))

end Fusego
